import Mathlib

/-!  Formal model of the student-records application (src/src/App.tsx).

The application is a single React component that manages an ordered list of
student records with validation, localStorage persistence, a dark-mode flag,
case-insensitive search, fixed-size pagination, and index-addressed
edit/delete.  All list and string operations of the component are translated
directly from the source.  Browser primitives (localStorage, JSON.stringify /
JSON.parse, alert, window.confirm) are modelled by their documented contracts,
as noted at each definition.

Entries of the in-memory student array are modelled as `Option Student`:
`some s` is an ordinary record and `none` stands for a JS hole / `undefined` /
`null` entry, which the out-of-range branch of JS element assignment (and its
JSON serialization as `null`) can produce.
-/

/-- Student record: the `Student` interface of App.tsx
(`name`, `dept`, `age`, `marks`).  Ages and marks are integers, matching
the data model of the specification. -/
structure Student where
  name : String
  dept : String
  age : Int
  marks : Int
deriving DecidableEq, Repr

/-- Initial / reset form contents: `{ name: "", dept: "", age: 0, marks: 0 }`. -/
def emptyForm : Student := ⟨"", "", 0, 0⟩

/-- Validation, translated from `isValid` (App.tsx lines 53–58).
In JS, `!formData.name` on a string is true exactly for the empty string. -/
def isValid (s : Student) : Bool :=
  if s.name = "" || s.dept = "" then false
  else if s.age ≤ 0 then false
  else if s.marks < 0 || s.marks > 100 then false
  else true

/-- Validity of one entry of the stored array: a hole / `null` entry is not a
valid record. -/
def entryValid : Option Student → Bool
  | some s => isValid s
  | none => false

/-- Invariant of the stored list: every entry is a record passing `isValid`. -/
def listInv (l : List (Option Student)) : Bool := l.all entryValid

/-- Lowercasing, modelling `String.prototype.toLowerCase` as applied to the
name / dept / query strings (characterwise lowercasing). -/
def jsToLower (s : String) : String := ⟨s.data.map Char.toLower⟩

/-- Test whether the first list is an initial segment of the second
(helper for modelling `String.prototype.includes`). -/
def leadEq : List Char → List Char → Bool
  | [], _ => true
  | _ :: _, [] => false
  | c :: cs, d :: ds => c == d && leadEq cs ds

/-- Test whether the first list occurs contiguously inside the second
(helper for modelling `String.prototype.includes`). -/
def subMatch (needle : List Char) : List Char → Bool
  | [] => needle.isEmpty
  | _d :: ds => leadEq needle (_d :: ds) || subMatch needle ds

/-- Substring containment, modelling `hay.includes(needle)` of JS: true iff
`needle` occurs contiguously in `hay`; an empty needle always matches. -/
def jsIncludes (hay needle : String) : Bool := subMatch needle.toList hay.toList

/-- Search predicate of the filter callback (App.tsx lines 92–96):
`s.name.toLowerCase().includes(q.toLowerCase()) ||
 s.dept.toLowerCase().includes(q.toLowerCase())`. -/
def matchesQuery (q : String) (s : Student) : Bool :=
  jsIncludes (jsToLower s.name) (jsToLower q) ||
  jsIncludes (jsToLower s.dept) (jsToLower q)

/-- Search filter `filteredStudents` (App.tsx lines 92–96), as a pure function
of the list and the query. -/
def filteredStudents (l : List Student) (q : String) : List Student :=
  l.filter (matchesQuery q)

/-- Array slicing, modelling `Array.prototype.slice(start, stop)` for integer
arguments: negative bounds count from the end, and both bounds are clipped to
the array. -/
def jsSlice {α : Type} (l : List α) (start stop : Int) : List α :=
  let n : Int := l.length
  let s : Int := if start < 0 then max (n + start) 0 else min start n
  let e : Int := if stop < 0 then max (n + stop) 0 else min stop n
  (l.drop s.toNat).take (e - s).toNat

/-- Ceiling division on naturals, modelling `Math.ceil(a / b)` for the
pagination page count (exact for natural operands, `b > 0`). -/
def jsCeilDiv (a b : Nat) : Nat := (a + b - 1) / b

/-- Page size constant `studentsPerPage` (App.tsx line 27). -/
def studentsPerPage : Nat := 5

/-- Index of one past the last row of the page: `currentPage * studentsPerPage`
(App.tsx line 99). -/
def indexOfLast (page : Nat) : Int := (page : Int) * studentsPerPage

/-- Index of the first row of the page: `indexOfLast - studentsPerPage`
(App.tsx line 100). -/
def indexOfFirst (page : Nat) : Int := indexOfLast page - studentsPerPage

/-- Pagination of the source (App.tsx lines 99–102), with the page size
generalised from the constant 5 to a parameter: the displayed window is
`filtered.slice((page-1)*size, page*size)` and the page count is
`Math.ceil(filtered.length / size)`. -/
def paginate (l : List Student) (page size : Nat) : List Student × Nat :=
  (jsSlice l ((page : Int) * size - size) ((page : Int) * size),
   jsCeilDiv l.length size)

/-- Displayed window `currentStudents` (App.tsx line 101). -/
def currentStudents (filtered : List Student) (page : Nat) : List Student :=
  jsSlice filtered (indexOfFirst page) (indexOfLast page)

/-- Page count `totalPages` (App.tsx line 102). -/
def totalPages (filtered : List Student) : Nat :=
  jsCeilDiv filtered.length studentsPerPage

/-- Text stored under the `"students"` key, modelling the contract of
`JSON.stringify` / `JSON.parse` for arrays of student records:
`parsed l` stands for a string produced by `JSON.stringify` on the array `l`
(such a string is never empty and `JSON.parse` returns `l` from it, with JS
holes / `undefined` entries serialised as `null`, here `none`);
`invalid s` stands for any other stored text, which `JSON.parse` rejects. -/
inductive StoredText
  | parsed (l : List (Option Student))
  | invalid (s : String)
deriving DecidableEq, Repr

/-- The backing key-value store (localStorage): the two keys used by the
application, each either absent (`getItem` returns `null`) or holding text. -/
structure Store where
  studentsSlot : Option StoredText
  darkModeSlot : Option String
deriving DecidableEq, Repr

/-- Store with both keys absent. -/
def emptyStore : Store := ⟨none, none⟩

/-- Loading of the student list at mount (App.tsx lines 30–35):
`const stored = localStorage.getItem("students"); if (stored) setStudents(JSON.parse(stored))`.
An absent key, and the falsy empty string, leave the initial `[]`; any other
unparseable text makes `JSON.parse` throw, which is uncaught (`error`). -/
def loadStudents (slot : Option StoredText) : Except Unit (List (Option Student)) :=
  match slot with
  | none => .ok []
  | some (.parsed l) => .ok l
  | some (.invalid s) => if s = "" then .ok [] else .error ()

/-- Dark-mode initializer (App.tsx lines 21–23):
`localStorage.getItem("darkMode") === "true"`.  Never throws. -/
def loadDarkMode (slot : Option String) : Bool := slot = some "true"

/-- Save effect (App.tsx lines 38–41): writes `JSON.stringify(students)` under
`"students"` and `String(darkMode)` (the text `"true"` / `"false"`) under
`"darkMode"`, replacing the whole store contents used by the app. -/
def saveEffect (students : List (Option Student)) (darkMode : Bool) : Store :=
  { studentsSlot := some (.parsed students),
    darkModeSlot := some (if darkMode then "true" else "false") }

/-- Element assignment `arr[i] = v` of JS on an array of length `n`:
in range it replaces the element; at `i = n` it appends; at `i > n` it
extends the array to length `i + 1`, leaving holes (`none`) in between. -/
def jsArrayWrite (l : List (Option Student)) (i : Nat) (v : Student) :
    List (Option Student) :=
  if i < l.length then l.set i (some v)
  else l ++ List.replicate (i - l.length) none ++ [some v]

/-- Index-filtering `list.filter((_, i) => i !== index)` of `handleDelete`
(App.tsx line 81). -/
def removeAt {α : Type} (l : List α) (idx : Nat) : List α :=
  (l.enum.filter (fun p => p.1 != idx)).map Prod.snd

/-- Component state: the five `useState` hooks of App.tsx plus the backing
store (kept in sync by the save effect). -/
structure AppState where
  students : List (Option Student)
  formData : Student
  editIndex : Option Nat
  search : String
  darkMode : Bool
  currentPage : Nat
  store : Store
deriving DecidableEq, Repr

/-- Submit handler `handleSubmit` (App.tsx lines 61–76).  The returned Bool
records whether the blocking `alert` fired.  On an invalid form the handler
returns before any state update; otherwise a non-null `editIndex` leads to
`updated[editIndex] = formData` (JS element assignment) and a null one to an
append, in both cases followed by a form reset (and `editIndex` reset in the
first case). -/
def handleSubmit (st : AppState) : AppState × Bool :=
  if !(isValid st.formData) then (st, true)
  else
    match st.editIndex with
    | some i =>
        ({ st with students := jsArrayWrite st.students i st.formData,
                   editIndex := none, formData := emptyForm }, false)
    | none =>
        ({ st with students := st.students ++ [some st.formData],
                   formData := emptyForm }, false)

/-- Delete handler `handleDelete` (App.tsx lines 79–83); `confirmed` models
the result of `window.confirm`. -/
def handleDelete (st : AppState) (index : Nat) (confirmed : Bool) : AppState :=
  if confirmed then { st with students := removeAt st.students index } else st

/-- Edit handler `handleEdit` (App.tsx lines 86–89): copies `students[index]`
into the form and records the index.  If that entry is a hole / `null` /
absent, the form state becomes a non-record and the next render throws, which
the model reports as `none`. -/
def handleEdit (st : AppState) (index : Nat) : Option AppState :=
  match st.students.get? index with
  | some (some s) => some { st with formData := s, editIndex := some index }
  | some none => none
  | none => none

/-- All-records view of the stored array: `some` of the record list when no
entry is a hole / `null`, else `none` (rendering such an array throws in
`filteredStudents`, since `null.name` is an error). -/
def seqOpt : List (Option Student) → Option (List Student)
  | [] => some []
  | none :: _ => none
  | some s :: t => (seqOpt t).map (fun l => s :: l)

/-- Derived filtered view of the current state, when the page can render. -/
def viewFiltered (st : AppState) : Option (List Student) :=
  (seqOpt st.students).map (fun l => filteredStudents l st.search)

/-- User-triggered events at the component boundary: the clicks carry the row
offset inside the rendered page window. -/
inductive Event
  | submit
  | clickEdit (row : Nat)
  | clickDelete (row : Nat) (confirmed : Bool)
  | setForm (f : Student)
  | setSearch (q : String)
  | toggleDark
  | nextPage
  | prevPage
deriving DecidableEq, Repr

/-- Store synchronisation after an event: the save effect runs whenever
`students` or `darkMode` changed; running it unconditionally is equivalent,
since rewriting unchanged values leaves the store equal. -/
def withSave (st : AppState) : AppState :=
  { st with store := saveEffect st.students st.darkMode }

/-- One user event processed by the component.  `none` marks an interaction
the rendered page cannot produce (a click on a row that is not displayed, a
navigation click on a disabled or hidden button) or a state on which the
render itself throws.  The edit / delete buttons of row `row` call the
handlers with `indexOfFirst + row` (App.tsx lines 185–191). -/
def uiStep (st : AppState) (e : Event) : Option AppState :=
  match e with
  | .submit => some (withSave (handleSubmit st).1)
  | .clickEdit row => do
      let view ← viewFiltered st
      let win := currentStudents view st.currentPage
      if row < win.length then
        let st1 ← handleEdit st ((indexOfFirst st.currentPage).toNat + row)
        some (withSave st1)
      else none
  | .clickDelete row confirmed => do
      let view ← viewFiltered st
      let win := currentStudents view st.currentPage
      if row < win.length then
        some (withSave (handleDelete st ((indexOfFirst st.currentPage).toNat + row) confirmed))
      else none
  | .setForm f => some (withSave { st with formData := f })
  | .setSearch q => some (withSave { st with search := q })
  | .toggleDark => some (withSave { st with darkMode := !st.darkMode })
  | .nextPage => do
      let view ← viewFiltered st
      if st.currentPage < totalPages view then
        some (withSave { st with currentPage := st.currentPage + 1 })
      else none
  | .prevPage =>
      if 1 < st.currentPage then some (withSave { st with currentPage := st.currentPage - 1 })
      else none

/-- Mounting the component against a given store: `useState` initial values,
the dark-mode initializer, the load effect, then the save effect.  `none`
marks a startup crash (uncaught `JSON.parse` exception in the load effect). -/
def initApp (store : Store) : Option AppState :=
  match loadStudents store.studentsSlot with
  | .error _ => none
  | .ok l => some (withSave
      { students := l, formData := emptyForm, editIndex := none,
        search := "", darkMode := loadDarkMode store.darkModeSlot,
        currentPage := 1, store := store })

/-- Run of the application: mount against a store, then process a list of
user events in order. -/
def runApp (store : Store) (es : List Event) : Option AppState :=
  (initApp store).bind (fun st => es.foldlM uiStep st)

/-! ### Concrete sample data used by the theorems below -/

/-- Sample valid record from the specification scenarios. -/
def alice : Student := ⟨"Alice", "CS", 20, 88⟩

/-- Sample valid record from the specification scenarios. -/
def bobR : Student := ⟨"Bob", "EE", 21, 50⟩

/-- Sample valid record. -/
def carol : Student := ⟨"Carol", "ME", 22, 70⟩

/-- Sample valid record. -/
def dave : Student := ⟨"Dave", "CE", 23, 60⟩

/-- Invalid candidate of the specification scenario: age 0. -/
def bobZero : Student := ⟨"Bob", "EE", 0, 50⟩

/-- Event sequence reaching an invariant-violating stored list from an empty
store: add three records, click Edit on row 2, delete that row and another
(deleting does not clear `editIndex`), then submit the (valid) form: the
submit runs `updated[2] = formData` on a one-element array. -/
def staleEditEvents : List Event :=
  [.setForm alice, .submit, .setForm bobR, .submit, .setForm carol, .submit,
   .clickEdit 2, .clickDelete 2 true, .clickDelete 1 true, .setForm dave, .submit]

/-- State with an empty list and a stale `editIndex = 1`, form holding a valid
candidate. -/
def stStale : AppState :=
  { students := [], formData := bobR, editIndex := some 1,
    search := "", darkMode := false, currentPage := 1, store := emptyStore }

/-- State holding one stored record with an invalid candidate in the form
(the ValidationError scenario of the specification). -/
def stInvalidForm : AppState :=
  { students := [some alice], formData := bobZero, editIndex := none,
    search := "", darkMode := false, currentPage := 1, store := emptyStore }

/-- Two-record state with the non-empty query "b": the displayed filtered
view is `[bobR]` while the stored list still starts with `alice`. -/
def stQueryB : AppState :=
  { students := [some alice, some bobR], formData := emptyForm, editIndex := none,
    search := "b", darkMode := false, currentPage := 1, store := emptyStore }

/-- Two-record state with the empty query. -/
def stNoQuery : AppState :=
  { students := [some alice, some bobR], formData := emptyForm, editIndex := none,
    search := "", darkMode := false, currentPage := 1, store := emptyStore }

/-- Twelve valid records, for the pagination scenario of the specification. -/
def twelveStudents : List Student := List.replicate 12 alice

/-- One-record state with a valid candidate in the form and no edit session. -/
def stAddBob : AppState :=
  { students := [some alice], formData := bobR, editIndex := none,
    search := "", darkMode := false, currentPage := 1, store := emptyStore }

/-! ### Helper lemmas -/

/-- An empty needle occurs in every haystack. -/
theorem subMatch_nil (hay : List Char) : subMatch [] hay = true := by
  cases hay <;> simp [subMatch, leadEq, List.isEmpty]

/-- JS `includes` with the empty needle is always true. -/
theorem jsIncludes_empty (hay : String) : jsIncludes hay "" = true := by
  unfold jsIncludes
  exact subMatch_nil _

/-- Every record matches the empty query. -/
theorem matchesQuery_empty (s : Student) : matchesQuery "" s = true := by
  unfold matchesQuery
  have h : jsToLower "" = "" := by decide
  rw [h, jsIncludes_empty, Bool.true_or]

/-- Indices in `enumFrom n l` are at least `n`. -/
theorem le_fst_of_mem_enumFrom {α : Type} {x : Nat × α} :
    ∀ {l : List α} {n : Nat}, x ∈ List.enumFrom n l → n ≤ x.1 := by
  intro l
  induction l with
  | nil => intro n h; simp [List.enumFrom] at h
  | cons a t ih =>
      intro n h
      simp only [List.enumFrom, List.mem_cons] at h
      rcases h with h | h
      · subst h; exact Nat.le_refl n
      · exact Nat.le_of_succ_le (ih h)

/-- Index-filtering over `enumFrom n`, dropping index `n + i`, removes exactly
the element at offset `i`. -/
theorem removeAt_go {α : Type} :
    ∀ (l : List α) (n i : Nat),
      ((List.enumFrom n l).filter (fun p => p.1 != n + i)).map Prod.snd
        = l.take i ++ l.drop (i + 1) := by
  intro l
  induction l with
  | nil => intro n i; simp [List.enumFrom]
  | cons a t ih =>
      intro n i
      cases i with
      | zero =>
          have hpred : ((n, a).1 != n + 0) = false := by simp
          have hall : (List.enumFrom (n + 1) t).filter (fun p => p.1 != n + 0)
              = List.enumFrom (n + 1) t := by
            rw [List.filter_eq_self]
            intro p hp
            have hn := le_fst_of_mem_enumFrom hp
            simp only [bne_iff_ne, ne_eq]
            omega
          simp only [List.enumFrom, List.filter, hpred, hall, List.enumFrom_map_snd]
          simp
      | succ j =>
          have hpred : ((n, a).1 != n + (j + 1)) = true := by
            simp only [bne_iff_ne, ne_eq]
            omega
          have hshift : (fun p : Nat × α => p.1 != n + (j + 1))
              = (fun p : Nat × α => p.1 != (n + 1) + j) := by
            funext p
            have : n + (j + 1) = (n + 1) + j := by omega
            rw [this]
          simp only [List.enumFrom, List.filter, hpred, List.map_cons]
          rw [hshift, ih (n + 1) j]
          simp [List.take, List.drop]

/-- The index-filter of `handleDelete` removes exactly the element at the
given index (and nothing when the index is out of range). -/
theorem removeAt_eq_take_drop {α : Type} (l : List α) (i : Nat) :
    removeAt l i = l.take i ++ l.drop (i + 1) := by
  unfold removeAt List.enum
  simpa using removeAt_go l 0 i

/-- JS slicing at non-negative integer bounds is drop-then-take. -/
theorem jsSlice_ofNat {α : Type} (l : List α) (a b : Nat) :
    jsSlice l (a : Int) (b : Int) = (l.drop a).take (b - a) := by
  unfold jsSlice
  have ha : ¬ ((a : Int) < 0) := Int.not_lt.mpr (Int.natCast_nonneg a)
  have hb : ¬ ((b : Int) < 0) := Int.not_lt.mpr (Int.natCast_nonneg b)
  simp only [ha, hb, if_false]
  have hmin1 : min (a : Int) ((l.length : Nat) : Int) = ((min a l.length : Nat) : Int) := by
    omega
  have hmin2 : min (b : Int) ((l.length : Nat) : Int) = ((min b l.length : Nat) : Int) := by
    omega
  rw [hmin1, hmin2, Int.toNat_natCast, Int.toNat_sub]
  rcases Nat.le_total a l.length with h | h
  · rw [Nat.min_eq_left h]
    rcases Nat.le_total b l.length with h2 | h2
    · rw [Nat.min_eq_left h2]
    · rw [Nat.min_eq_right h2]
      rw [List.take_of_length_le (by simp [List.length_drop]),
          List.take_of_length_le (by simp [List.length_drop]; omega)]
  · rw [Nat.min_eq_right h, List.drop_length, List.drop_eq_nil_of_le h]
    simp

/-- The page window at page `p ≥ 1` and size `s` is drop-then-take. -/
theorem paginate_window_eq (l : List Student) (p s : Nat) (hp : 1 ≤ p) :
    (paginate l p s).1 = (l.drop ((p - 1) * s)).take s := by
  obtain ⟨q, rfl⟩ : ∃ q, p = q + 1 := ⟨p - 1, by omega⟩
  unfold paginate
  have h1 : ((q + 1 : Nat) : Int) * (s : Int) - (s : Int) = ((q * s : Nat) : Int) := by
    push_cast
    ring
  have h2 : ((q + 1 : Nat) : Int) * (s : Int) = (((q + 1) * s : Nat) : Int) := by
    push_cast
    ring
  rw [h1, h2, jsSlice_ofNat]
  have h3 : (q + 1) * s - q * s = s := by
    rw [Nat.succ_mul]
    omega
  have h4 : q + 1 - 1 = q := rfl
  rw [h3, h4]

/-- The ceiling page count covers the whole list. -/
theorem jsCeilDiv_le_mul (n s : Nat) (hs : 0 < s) : n ≤ jsCeilDiv n s * s := by
  unfold jsCeilDiv
  have hdm := Nat.div_add_mod (n + s - 1) s
  have hmod := Nat.mod_lt (n + s - 1) hs
  have hcomm : (n + s - 1) / s * s = s * ((n + s - 1) / s) := Nat.mul_comm _ _
  omega

/-- The ceiling page count is tight. -/
theorem jsCeilDiv_mul_le (n s : Nat) : jsCeilDiv n s * s ≤ n + s - 1 :=
  Nat.div_mul_le_self _ _

/-- Ceiling division of zero. -/
theorem jsCeilDiv_zero (s : Nat) : jsCeilDiv 0 s = 0 := by
  unfold jsCeilDiv
  cases s with
  | zero => rfl
  | succ k => exact Nat.div_eq_of_lt (by omega)

/-- The source window at page size 5 in drop-then-take form. -/
theorem currentStudents_eq (l : List Student) (p : Nat) (hp : 1 ≤ p) :
    currentStudents l p = (l.drop ((p - 1) * 5)).take 5 :=
  paginate_window_eq l p 5 hp

/-- The index offset handed to the row buttons, as a natural number. -/
theorem indexOfFirst_toNat (p : Nat) (hp : 1 ≤ p) :
    (indexOfFirst p).toNat = (p - 1) * 5 := by
  unfold indexOfFirst indexOfLast studentsPerPage
  have h2 : (p : Int) * ((5 : Nat) : Int) - ((5 : Nat) : Int) = ((p * 5 - 5 : Nat) : Int) := by
    rw [Nat.cast_sub (by omega : 5 ≤ p * 5)]
    push_cast
    ring
  rw [h2, Int.toNat_natCast]
  omega

/-- The empty query keeps every record. -/
theorem filteredStudents_empty (l : List Student) : filteredStudents l "" = l := by
  rw [filteredStudents, List.filter_eq_self]
  intro a _
  exact matchesQuery_empty a

/-! ### Claims -/

/-- C2: the validation function returns true exactly when the name and dept
are non-empty, the age is positive, and the marks lie in [0, 100]; it returns
false whenever any of the four constraints fails. -/
theorem c2_isValid_iff (s : Student) :
    isValid s = true ↔
      (s.name ≠ "" ∧ s.dept ≠ "" ∧ 0 < s.age ∧ 0 ≤ s.marks ∧ s.marks ≤ 100) := by
  unfold isValid
  by_cases h1 : s.name = "" <;> by_cases h2 : s.dept = "" <;> simp [h1, h2]

/-- C4: submitting a candidate that fails validation mutates nothing: the
whole state (students, editIndex, form contents, search, page, store) is
returned unchanged and the blocking alert fires. -/
theorem c4_invalid_submit_no_mutation (st : AppState)
    (h : isValid st.formData = false) :
    handleSubmit st = (st, true) := by
  simp [handleSubmit, h]

/-- Witness for C4 at the specification scenario: list `[Alice]`, candidate
`{Bob, EE, 0, 50}` fails validation (age 0), the list stays of length 1. -/
theorem c4_witness :
    isValid stInvalidForm.formData = false ∧
    handleSubmit stInvalidForm = (stInvalidForm, true) ∧
    stInvalidForm.students.length = 1 :=
  ⟨by decide, c4_invalid_submit_no_mutation stInvalidForm (by decide), by decide⟩

/-- C6: search with the empty query returns the full list unchanged in order;
search with query `q` returns a sublist (order preserved, input untouched)
holding exactly the elements whose lowercased name or dept contains the
lowercased query. -/
theorem c6_search_characterization (l : List Student) (q : String) :
    filteredStudents l "" = l ∧
    (filteredStudents l q).Sublist l ∧
    (∀ s : Student, s ∈ filteredStudents l q ↔ s ∈ l ∧ matchesQuery q s = true) :=
  ⟨filteredStudents_empty l, List.filter_sublist l, fun _ => List.mem_filter⟩

/-- C7: for page size > 0 and page number ≥ 1, the pagination window consists
of the list elements at indices [(page-1)·size, page·size) clipped to the list
(so a page past the end yields an empty window, not an error), and the page
count is the ceiling of length / size. -/
theorem c7_paginate_characterization (l : List Student) (page size : Nat)
    (hsize : 0 < size) (hpage : 1 ≤ page) :
    (paginate l page size).1.length = min size (l.length - (page - 1) * size) ∧
    (∀ j, j < size →
        (paginate l page size).1[j]? = l[(page - 1) * size + j]?) ∧
    (l.length ≤ (page - 1) * size → (paginate l page size).1 = []) ∧
    l.length ≤ (paginate l page size).2 * size ∧
    (paginate l page size).2 * size ≤ l.length + size - 1 ∧
    (l.length = 0 → (paginate l page size).2 = 0) ∧
    ((paginate l page size).2 < page → (paginate l page size).1 = []) := by
  have hw := paginate_window_eq l page size hpage
  have htp : (paginate l page size).2 = jsCeilDiv l.length size := rfl
  refine ⟨?_, ?_, ?_, ?_, ?_, ?_, ?_⟩
  · rw [hw]
    simp [List.length_take, List.length_drop]
  · intro j hj
    rw [hw, List.getElem?_take_of_lt hj, List.getElem?_drop]
  · intro hle
    rw [hw, List.drop_eq_nil_of_le hle]
    simp
  · rw [htp]
    exact jsCeilDiv_le_mul _ _ hsize
  · rw [htp]
    exact jsCeilDiv_mul_le _ _
  · intro h0
    rw [htp, h0]
    exact jsCeilDiv_zero size
  · intro hlt
    have h1 : l.length ≤ (paginate l page size).2 * size := by
      rw [htp]
      exact jsCeilDiv_le_mul _ _ hsize
    have h2 : (paginate l page size).2 * size ≤ (page - 1) * size :=
      Nat.mul_le_mul_right size (by omega)
    rw [hw, List.drop_eq_nil_of_le (by omega)]
    simp

/-- Witness for C7 at the specification scenario: 12 records, page 3 of
size 5 shows the 2 records at indices 10–11, and the page count is 3. -/
theorem c7_witness :
    (0 < 5 ∧ 1 ≤ 3) ∧
    (paginate twelveStudents 3 5).1.length = min 5 (twelveStudents.length - (3 - 1) * 5) ∧
    (paginate twelveStudents 3 5).1.length = 2 ∧
    (paginate twelveStudents 3 5).2 = 3 :=
  ⟨⟨by decide, by decide⟩,
   (c7_paginate_characterization twelveStudents 3 5 (by decide) (by decide)).1,
   by decide, by decide⟩

/-- C8 (amended reading is the claim itself, which holds): loading right after
saving reproduces the student list entry-for-entry in order and the dark-mode
flag exactly, for any list of valid records. -/
theorem c8_save_load_roundtrip (l : List (Option Student)) (flag : Bool)
    (_hval : listInv l = true) :
    loadStudents (saveEffect l flag).studentsSlot = .ok l ∧
    loadDarkMode (saveEffect l flag).darkModeSlot = flag ∧
    (initApp (saveEffect l flag)).map (fun st => (st.students, st.darkMode))
      = some (l, flag) := by
  refine ⟨rfl, ?_, ?_⟩
  · cases flag <;> rfl
  · cases flag <;> rfl

/-- Witness for C8 on a one-record valid list and flag `true`. -/
theorem c8_witness :
    listInv [some alice] = true ∧
    loadStudents (saveEffect [some alice] true).studentsSlot = .ok [some alice] ∧
    loadDarkMode (saveEffect [some alice] true).darkModeSlot = true :=
  ⟨by decide,
   (c8_save_load_roundtrip [some alice] true (by decide)).1,
   (c8_save_load_roundtrip [some alice] true (by decide)).2.1⟩

/-- C9 (amended): load yields the empty list and `false` when the persisted
values are absent; an unparseable dark-mode value also yields `false`, and an
empty (falsy) students string is treated as absent; but a non-empty
unparseable students value makes load throw — startup fails instead of
degrading to the empty list. -/
theorem c9_load_defaults :
    loadStudents none = .ok [] ∧
    loadStudents (some (.invalid "")) = .ok [] ∧
    loadDarkMode none = false ∧
    (∀ s : String, s ≠ "true" → loadDarkMode (some s) = false) ∧
    (∀ s : String, s ≠ "" → loadStudents (some (.invalid s)) = .error ()) ∧
    (initApp emptyStore).map (fun st => (st.students, st.darkMode))
      = some ([], false) := by
  refine ⟨rfl, rfl, rfl, ?_, ?_, rfl⟩
  · intro s hs
    simp [loadDarkMode, hs]
  · intro s hs
    simp [loadStudents, hs]

/-- Witness for C9 applying the unparseable-students clause at `"x"`. -/
theorem c9_witness :
    ("x" : String) ≠ "" ∧ loadStudents (some (.invalid "x")) = .error () :=
  ⟨by decide, c9_load_defaults.2.2.2.2.1 "x" (by decide)⟩

/-- Counterexample to C9 as stated: with a non-empty unparseable students
value the claim demands the empty list and `false`; the code instead lets the
uncaught `JSON.parse` exception abort startup. -/
theorem c9_unparseable_is_fatal :
    loadStudents (some (.invalid "oops")) ≠ .ok [] ∧
    loadStudents (some (.invalid "oops")) = .error () ∧
    initApp ⟨some (.invalid "oops"), none⟩ = none :=
  ⟨by simp [loadStudents], rfl, rfl⟩

/-- C5 (amended): for an in-range index the delete filter removes exactly one
element — length drops by 1, positions before the index are unchanged, and
each later position holds the old next element; an out-of-range index is a
silent no-op (the list is returned unchanged), not an error. -/
theorem c5_removeAt_characterization (l : List (Option Student)) (i : Nat) :
    (i < l.length →
        (removeAt l i).length = l.length - 1 ∧
        (∀ j, j < i → (removeAt l i)[j]? = l[j]?) ∧
        (∀ j, i ≤ j → (removeAt l i)[j]? = l[j + 1]?)) ∧
    (l.length ≤ i → removeAt l i = l) := by
  have hrw := removeAt_eq_take_drop l i
  constructor
  · intro hi
    have hlen : (l.take i).length = i := by
      simp [List.length_take]
      omega
    refine ⟨?_, ?_, ?_⟩
    · rw [hrw]
      simp [List.length_append, List.length_take, List.length_drop]
      omega
    · intro j hj
      rw [hrw, List.getElem?_append, hlen, if_pos hj]
      exact List.getElem?_take_of_lt hj
    · intro j hj
      rw [hrw, List.getElem?_append_right (by rw [hlen]; exact hj), hlen,
          List.getElem?_drop]
      rw [show i + 1 + (j - i) = j + 1 from by omega]
  · intro hi
    rw [hrw, List.take_of_length_le hi, List.drop_eq_nil_of_le (by omega)]
    simp

/-- Counterexample to C5 as stated: deleting at index 5 of a one-element list
does not fail with an IndexError — the state is returned unchanged. -/
theorem c5_out_of_range_delete_is_noop :
    stInvalidForm.students.length ≤ 5 ∧
    handleDelete stInvalidForm 5 true = stInvalidForm :=
  ⟨by decide, by decide⟩

/-- Witness for C5 at the specification scenario:
`removeAt 0` on `[Alice, Bob]` yields `[Bob]`. -/
theorem c5_witness :
    0 < ([some alice, some bobR] : List (Option Student)).length ∧
    (removeAt [some alice, some bobR] 0).length
      = ([some alice, some bobR] : List (Option Student)).length - 1 ∧
    removeAt [some alice, some bobR] 0 = [some bobR] :=
  ⟨by decide,
   ((c5_removeAt_characterization [some alice, some bobR] 0).1 (by decide)).1,
   by decide⟩

/-- C3 (amended): for a valid candidate, submit appends when `editIndex` is
null; a present in-range `editIndex` replaces that element, preserving length
and every other position; a present `editIndex` equal to the length also
appends; but a present `editIndex` beyond the length extends the list to
length `editIndex + 1`, keeping the old elements, placing the candidate at
`editIndex`, and leaving empty (`null`) entries in between — not an append. -/
theorem c3_upsert_characterization (st : AppState)
    (hv : isValid st.formData = true) :
    (st.editIndex = none →
        (handleSubmit st).1.students = st.students ++ [some st.formData]) ∧
    (∀ i, st.editIndex = some i →
        (i < st.students.length →
            (handleSubmit st).1.students.length = st.students.length ∧
            (handleSubmit st).1.students[i]? = some (some st.formData) ∧
            (∀ j, j ≠ i → (handleSubmit st).1.students[j]? = st.students[j]?)) ∧
        (i = st.students.length →
            (handleSubmit st).1.students = st.students ++ [some st.formData]) ∧
        (st.students.length < i →
            (handleSubmit st).1.students.length = i + 1 ∧
            (handleSubmit st).1.students[i]? = some (some st.formData) ∧
            (∀ j, j < st.students.length →
                (handleSubmit st).1.students[j]? = st.students[j]?) ∧
            (∀ j, st.students.length ≤ j → j < i →
                (handleSubmit st).1.students[j]? = some none))) := by
  constructor
  · intro hnone
    simp [handleSubmit, hv, hnone]
  · intro i hi
    have hred : (handleSubmit st).1.students = jsArrayWrite st.students i st.formData := by
      simp [handleSubmit, hv, hi]
    rw [hred]
    refine ⟨?_, ?_, ?_⟩
    · intro hlt
      unfold jsArrayWrite
      rw [if_pos hlt]
      refine ⟨List.length_set _ _ _, ?_, ?_⟩
      · rw [List.getElem?_set]
        simp [hlt]
      · intro j hj
        rw [List.getElem?_set, if_neg (Ne.symm hj)]
    · intro heq
      subst heq
      simp [jsArrayWrite]
    · intro hgt
      unfold jsArrayWrite
      rw [if_neg (by omega)]
      have hab : (st.students ++ List.replicate (i - st.students.length) none).length = i := by
        rw [List.length_append, List.length_replicate]
        omega
      refine ⟨?_, ?_, ?_, ?_⟩
      · rw [List.length_append, hab]
        rfl
      · rw [List.getElem?_append_right (by omega), hab]
        simp
      · intro j hj
        rw [List.getElem?_append, if_pos (by omega), List.getElem?_append, if_pos hj]
      · intro j hj1 hj2
        rw [List.getElem?_append, if_pos (by omega), List.getElem?_append_right hj1,
            List.getElem?_replicate, if_pos (by omega)]

/-- Counterexample to C3 as stated: on the empty list with the present
out-of-range `editIndex = 1` and a valid candidate, submit does not append —
it produces a two-element list with an empty (`null`) entry at position 0. -/
theorem c3_out_of_range_not_append :
    isValid stStale.formData = true ∧
    stStale.editIndex = some 1 ∧
    stStale.students.length < 1 ∧
    (handleSubmit stStale).1.students ≠ stStale.students ++ [some stStale.formData] ∧
    (handleSubmit stStale).1.students = [none, some bobR] :=
  ⟨by decide, rfl, by decide, by decide, by decide⟩

/-- Witness for C3 on the append branch: adding Bob to `[Alice]`. -/
theorem c3_witness :
    isValid stAddBob.formData = true ∧
    (handleSubmit stAddBob).1.students = stAddBob.students ++ [some stAddBob.formData] ∧
    (handleSubmit stAddBob).1.students = [some alice, some bobR] :=
  ⟨by decide, (c3_upsert_characterization stAddBob (by decide)).1 rfl, by decide⟩

/-- C10: the row buttons hand `indexOfFirst + row` — a position in the
filtered, paginated view — to the handlers, which address the full stored
list.  With an empty query the addressed entry equals the displayed record;
with the non-empty query "b" on `[Alice, Bob]`, row 0 displays Bob while the
handlers address (and delete) Alice. -/
theorem c10_filtered_index_addressing :
    (∀ (view : List Student) (st : AppState) (row : Nat),
        st.students = view.map some → st.search = "" → 1 ≤ st.currentPage →
        row < (currentStudents (filteredStudents view st.search) st.currentPage).length →
        st.students[(indexOfFirst st.currentPage).toNat + row]? =
          ((currentStudents (filteredStudents view st.search) st.currentPage)[row]?).map some) ∧
    ((currentStudents (filteredStudents [alice, bobR] stQueryB.search) stQueryB.currentPage)[0]?
        = some bobR ∧
      stQueryB.students[(indexOfFirst stQueryB.currentPage).toNat + 0]? = some (some alice) ∧
      alice ≠ bobR ∧
      (handleDelete stQueryB ((indexOfFirst stQueryB.currentPage).toNat + 0) true).students
        = [some bobR]) := by
  constructor
  · intro view st row hst hsearch hpage hrow
    rw [hsearch, filteredStudents_empty] at hrow ⊢
    rw [currentStudents_eq view st.currentPage hpage] at hrow ⊢
    rw [indexOfFirst_toNat st.currentPage hpage]
    have hrow5 : row < 5 := by
      simp [List.length_take, List.length_drop] at hrow
      omega
    rw [List.getElem?_take_of_lt hrow5, List.getElem?_drop, hst, List.getElem?_map]
  · exact ⟨by decide, by decide, by decide, by decide⟩

/-- Witness for C10 with the empty query on `[Alice, Bob]`: the entry
addressed for row 0 is exactly the displayed record. -/
theorem c10_witness :
    stNoQuery.students = [alice, bobR].map some ∧
    stNoQuery.students[(indexOfFirst stNoQuery.currentPage).toNat + 0]? =
      ((currentStudents (filteredStudents [alice, bobR] stNoQuery.search)
          stNoQuery.currentPage)[0]?).map some :=
  ⟨by decide,
   c10_filtered_index_addressing.1 [alice, bobR] stNoQuery 0 (by decide) rfl
     (by decide) (by decide)⟩

/-- C1: a run of the application from an empty store — three valid adds, an
edit click on row 2, two confirmed deletes (which do not clear the stale
`editIndex`), then a valid submit — persists the list
`[Alice, null, Dave]`, whose `null` entry fails the validation predicate:
the all-records-valid invariant is violated by reachable code. -/
theorem c1_stale_edit_corrupts_invariant :
    (runApp emptyStore staleEditEvents).map
        (fun st => (st.students, listInv st.students, st.store.studentsSlot)) =
      some ([some alice, none, some dave], false,
        some (.parsed [some alice, none, some dave])) := by
  decide
